import Mathlib

/- Formal model of the revrag voice agent (src/agent.py).

   The agent is an `EchoAgent` on top of the LiveKit `AgentSession` framework:
   it echoes back user transcripts, greets on entry, and runs a background
   silence watcher that plays a one-shot reminder after 20 seconds of silence.

   The shallow embedding below translates the agent's own code (the only
   mutable state it declares is `self._last_speech_time`, plus the watcher's
   local `reminder_played` flag), with time as `Nat` seconds.  Framework
   events (VAD speech start, user-turn completion, the watcher waking up)
   are modelled as an explicit event type; the agent's handlers become a
   step function on an explicit state record. -/

namespace VoiceAgent

/-- Source constant `SILENCE_TIMEOUT_SECONDS = 20` (agent.py line 46). -/
def SILENCE_TIMEOUT_SECONDS : Nat := 20

/-- The literal `5` in `await asyncio.sleep(5)` inside `_silence_watcher`
    (agent.py line 98): the watcher's poll period in seconds.  The source has
    no named constant for it; the spec calls it `watchdog_poll_interval_seconds`. -/
def WATCHDOG_POLL_INTERVAL_SECONDS : Nat := 5

/-- Source constant `REMINDER_TEXT` (agent.py line 47). -/
def REMINDER_TEXT : String :=
  "I'm still here. Feel free to say something whenever you're ready."

/-- The greeting said by `on_enter` (agent.py lines 65-68). -/
def GREETING_TEXT : String :=
  "Hello! I'm your voice assistant. Say something and I'll echo it back to you."

/-- The inline reprompt literal in `on_user_turn_completed` (agent.py line 84). -/
def REPROMPT_TEXT : String :=
  "Sorry, I didn't catch that. Could you say that again?"

/-- Python `str.isspace` on a single character: the characters stripped by
    `str.strip()` with no argument (ASCII whitespace, the C1 control
    separators, and the Unicode space characters). -/
def pyIsSpace (c : Char) : Bool :=
  c == ' ' || c == '\t' || c == '\n' || c == '\r' || c == '\x0b' || c == '\x0c' ||
  c == '\x1c' || c == '\x1d' || c == '\x1e' || c == '\x1f' || c == '\x85' || c == '\xa0' ||
  c == ' ' || c == ' ' || c == ' ' || c == ' ' || c == ' ' ||
  c == ' ' || c == ' ' || c == ' ' || c == ' ' || c == ' ' ||
  c == ' ' || c == ' ' || c == ' ' || c == ' ' || c == ' ' ||
  c == ' ' || c == '　'

/-- Python `str.strip()`: drop whitespace from both ends
    (used at agent.py line 76). -/
def pyStrip (s : String) : String :=
  String.mk (((s.data.dropWhile pyIsSpace).reverse.dropWhile pyIsSpace).reverse)

/-- The response computed by `on_user_turn_completed` (agent.py lines 76-84):
    `user_text = new_message.text_content.strip() if new_message.text_content else ""`
    (Python truthiness: `None` and `""` both take the `else` branch), then
    `"You said: " + user_text` when `user_text` is non-empty, else the fixed
    reprompt.  `text_content : Option String` models `Optional[str]`. -/
def userTurnResponse (text_content : Option String) : String :=
  let user_text : String :=
    match text_content with
    | some t => if t = "" then "" else pyStrip t
    | none => ""
  if user_text = "" then REPROMPT_TEXT
  else "You said: " ++ user_text

/-- The agent's mutable state: `self._last_speech_time` (agent.py line 60),
    the watcher-local `reminder_played` flag (agent.py line 96), and — for
    observing behaviour — the list of `(time, text)` utterances passed to
    `session.say`, in order. -/
structure AgentState where
  last_speech_time : Nat
  reminder_played : Bool
  said : List (Nat × String)
  deriving DecidableEq

/-- Events that reach the agent, each delivered at a `Nat` timestamp:
    `speech_started` is the VAD speech-start edge (the framework cancels
    playback; the agent's code registers no hook for it, so none of the
    state above is touched); `on_enter` is session entry (says the greeting
    and starts the watcher); `user_turn_completed` carries the STT
    transcript (`Optional[str]`); `poll` is one wake-up of the
    `_silence_watcher` loop body. -/
inductive Event where
  | speech_started
  | on_enter
  | user_turn_completed (text_content : Option String)
  | poll
  deriving DecidableEq

/-- State at construction (`EchoAgent.__init__`, agent.py line 60):
    `self._last_speech_time = time.time()`; the watcher's `reminder_played`
    starts `False` (agent.py line 96); nothing said yet. -/
def initState (now : Nat) : AgentState :=
  { last_speech_time := now, reminder_played := false, said := [] }

/-- One event handled at time `now`, translated clause by clause from
    agent.py:
    `speech_started` — no agent code runs (no hook registered): state unchanged.
    `on_enter` (lines 62-69) — says the greeting (the clock is not touched).
    `user_turn_completed` (lines 71-87) — sets `_last_speech_time = now` and
      says `userTurnResponse text_content`; `reminder_played` is a local of
      the watcher and is not touched here.
    `poll` (lines 97-106) — `elapsed = now - _last_speech_time`; if
      `elapsed >= SILENCE_TIMEOUT_SECONDS and not reminder_played`, say the
      reminder and set the flag; elif `elapsed < SILENCE_TIMEOUT_SECONDS and
      reminder_played`, clear the flag; else nothing. -/
def stepEvent (now : Nat) (e : Event) (s : AgentState) : AgentState :=
  match e with
  | Event.speech_started => s
  | Event.on_enter => { s with said := s.said ++ [(now, GREETING_TEXT)] }
  | Event.user_turn_completed tc =>
      { s with last_speech_time := now,
               said := s.said ++ [(now, userTurnResponse tc)] }
  | Event.poll =>
      let elapsed := now - s.last_speech_time
      if SILENCE_TIMEOUT_SECONDS ≤ elapsed ∧ s.reminder_played = false then
        { s with reminder_played := true,
                 said := s.said ++ [(now, REMINDER_TEXT)] }
      else if elapsed < SILENCE_TIMEOUT_SECONDS ∧ s.reminder_played = true then
        { s with reminder_played := false }
      else s

/-- Run a timestamped event trace (times are produced nondecreasing by the
    wall clock; theorems state that where they need it). -/
def runTrace (s : AgentState) : List (Nat × Event) → AgentState
  | [] => s
  | p :: tr => runTrace (stepEvent p.1 p.2 s) tr

/-- Run a sequence of watcher polls at the given times (a silence interval:
    no other events). -/
def runPolls (s : AgentState) : List Nat → AgentState
  | [] => s
  | t :: ts => runPolls (stepEvent t Event.poll s) ts

/-- How many reminder utterances have been said. -/
def reminderCount (s : AgentState) : Nat :=
  (s.said.filter (fun u => u.2 == REMINDER_TEXT)).length

/-- Outcome of one `await self.session.say(...)`: either the utterance is
    synthesized and played, or the TTS engine raises (`SynthesisError` in
    the spec's taxonomy). -/
inductive SayOutcome where
  | ok
  | synthesis_error
  deriving DecidableEq

/-- `on_user_turn_completed` with the fallibility of `session.say` made
    explicit (agent.py lines 71-87).  `tts` gives the outcome of
    synthesizing a given text.  The source wraps the `await
    self.session.say(response, ...)` in no try/except, so whatever the call
    raises leaves the handler: the second component is the outcome the
    caller of the handler observes.  Note `_last_speech_time` was already
    updated (line 77) before `say` (line 87), so it is updated even on
    error; on error nothing was said. -/
def on_user_turn_completed_say (tts : String → SayOutcome) (now : Nat)
    (text_content : Option String) (s : AgentState) : AgentState × SayOutcome :=
  let response := userTurnResponse text_content
  let s1 : AgentState := { s with last_speech_time := now }
  match tts response with
  | SayOutcome.ok => ({ s1 with said := s1.said ++ [(now, response)] }, SayOutcome.ok)
  | SayOutcome.synthesis_error => (s1, SayOutcome.synthesis_error)

/-- One `_silence_watcher` loop body with the fallibility of `session.say`
    made explicit (agent.py lines 97-106).  In the fire branch the source
    runs `await self.session.say(REMINDER_TEXT, ...)` (line 103) before
    `reminder_played = True` (line 104) and has no try/except, so on a TTS
    error the flag is not set and the exception leaves the loop body
    (ending the watcher task). -/
def silence_watcher_poll_say (tts : String → SayOutcome) (now : Nat)
    (s : AgentState) : AgentState × SayOutcome :=
  let elapsed := now - s.last_speech_time
  if SILENCE_TIMEOUT_SECONDS ≤ elapsed ∧ s.reminder_played = false then
    match tts REMINDER_TEXT with
    | SayOutcome.ok =>
        ({ s with reminder_played := true,
                  said := s.said ++ [(now, REMINDER_TEXT)] }, SayOutcome.ok)
    | SayOutcome.synthesis_error => (s, SayOutcome.synthesis_error)
  else if elapsed < SILENCE_TIMEOUT_SECONDS ∧ s.reminder_played = true then
    ({ s with reminder_played := false }, SayOutcome.ok)
  else (s, SayOutcome.ok)

/- Helper lemmas about strings. -/

lemma pyStrip_empty : pyStrip "" = "" := rfl

lemma pyStrip_all_space (t : String) (h : ∀ c ∈ t.data, pyIsSpace c = true) :
    pyStrip t = "" := by
  have hdrop : t.data.dropWhile pyIsSpace = [] := by
    rw [List.dropWhile_eq_nil_iff]
    intro c hc
    exact h c hc
  simp [pyStrip, hdrop]

/- Helper lemmas about single poll steps. -/

lemma poll_fire_eq (s : AgentState) (now : Nat)
    (hge : SILENCE_TIMEOUT_SECONDS ≤ now - s.last_speech_time)
    (hfl : s.reminder_played = false) :
    stepEvent now Event.poll s =
      { s with reminder_played := true,
               said := s.said ++ [(now, REMINDER_TEXT)] } := by
  simp [stepEvent, hge, hfl]

lemma poll_saturated_eq (s : AgentState) (now : Nat)
    (hge : SILENCE_TIMEOUT_SECONDS ≤ now - s.last_speech_time)
    (hfl : s.reminder_played = true) :
    stepEvent now Event.poll s = s := by
  simp [stepEvent, hfl, Nat.not_lt_of_le hge]

lemma poll_subtimeout_eq (s : AgentState) (now : Nat)
    (hlt : now - s.last_speech_time < SILENCE_TIMEOUT_SECONDS) :
    stepEvent now Event.poll s = { s with reminder_played := false } := by
  obtain ⟨a, rp, sd⟩ := s
  cases rp <;> simp [stepEvent, Nat.not_le_of_lt hlt, hlt]

lemma poll_last (s : AgentState) (now : Nat) :
    (stepEvent now Event.poll s).last_speech_time = s.last_speech_time := by
  by_cases hfl : s.reminder_played = true
  · by_cases hge : SILENCE_TIMEOUT_SECONDS ≤ now - s.last_speech_time
    · rw [poll_saturated_eq s now hge hfl]
    · rw [poll_subtimeout_eq s now (Nat.lt_of_not_le hge)]
  · have hfl' : s.reminder_played = false := by
      cases h : s.reminder_played
      · rfl
      · exact absurd h hfl
    by_cases hge : SILENCE_TIMEOUT_SECONDS ≤ now - s.last_speech_time
    · rw [poll_fire_eq s now hge hfl']
    · rw [poll_subtimeout_eq s now (Nat.lt_of_not_le hge)]

/- Claim theorems. -/

/-- C1: for every user turn completion, the utterance said is a pure function
    of the transcript, `userTurnResponse`; when the trimmed transcript is
    non-empty the response is `"You said: "` followed by the trimmed
    transcript, when it is empty the response is the fixed reprompt string,
    and transcript `"hello world"` yields `"You said: hello world"`. -/
theorem echo_response_spec (tc : Option String) :
    (∀ (now : Nat) (s : AgentState),
        (stepEvent now (Event.user_turn_completed tc) s).said =
          s.said ++ [(now, userTurnResponse tc)]) ∧
    (pyStrip (tc.getD "") ≠ "" →
        userTurnResponse tc = "You said: " ++ pyStrip (tc.getD "")) ∧
    (pyStrip (tc.getD "") = "" → userTurnResponse tc = REPROMPT_TEXT) ∧
    userTurnResponse (some "hello world") = "You said: hello world" := by
  refine ⟨fun now s => rfl, ?_, ?_, by decide⟩
  · intro h
    match tc with
    | none => exact absurd pyStrip_empty h
    | some t =>
        simp only [Option.getD] at h
        have ht : t ≠ "" := by
          intro he; rw [he] at h; exact h pyStrip_empty
        simp [userTurnResponse, ht, h]
  · intro h
    match tc with
    | none => rfl
    | some t =>
        simp only [Option.getD] at h
        by_cases ht : t = ""
        · simp [userTurnResponse, ht]
        · simp [userTurnResponse, ht, h]

/-- C1 witness: the concrete transcript `"hello world"`. -/
theorem echo_response_spec_witness :
    pyStrip "hello world" ≠ "" ∧
      userTurnResponse (some "hello world") = "You said: " ++ pyStrip "hello world" :=
  ⟨by decide, (echo_response_spec (some "hello world")).2.1 (by decide)⟩

/-- C10: a missing transcript (`text_content` is `None`), a whitespace-only
    transcript, and the empty transcript are treated alike: stripping happens
    before the emptiness test, and in all three cases the fixed reprompt is
    the response (the handler is a total function — no error is raised). -/
theorem blank_transcript_reprompt (t : String)
    (hws : ∀ c ∈ t.data, pyIsSpace c = true) :
    userTurnResponse none = REPROMPT_TEXT ∧
    userTurnResponse (some t) = REPROMPT_TEXT ∧
    userTurnResponse (some "") = REPROMPT_TEXT := by
  refine ⟨rfl, ?_, rfl⟩
  by_cases ht : t = ""
  · simp [userTurnResponse, ht]
  · simp [userTurnResponse, ht, pyStrip_all_space t hws]

/-- C10 witness: the whitespace-only transcript made of spaces and a tab. -/
theorem blank_transcript_reprompt_witness :
    (∀ c ∈ ("  \t  " : String).data, pyIsSpace c = true) ∧
      userTurnResponse (some "  \t  ") = REPROMPT_TEXT :=
  ⟨by decide, (blank_transcript_reprompt "  \t  " (by decide)).2.1⟩

/-- C2 counterexample: a VAD `SpeechStarted` event does not write the
    activity timestamp.  From the freshly constructed agent (clock 0), a
    speech-start at time 5 leaves the clock at 0, not 5: the source
    registers no speech-start hook and writes `_last_speech_time` only in
    `__init__` and `on_user_turn_completed`. -/
theorem speech_started_clock_cex :
    ¬ ((stepEvent 5 Event.speech_started (initState 0)).last_speech_time = 5) := by
  decide

/-- C2 amended: the ActivityClock (`_last_speech_time`) is written on every
    user-turn completion (after STT finalizes the transcript), not on
    `SpeechStarted`; a `SpeechStarted` event leaves the whole agent state,
    in particular the clock, unchanged. -/
theorem activity_clock_on_turn_completed (s : AgentState) (now : Nat)
    (tc : Option String) :
    (stepEvent now (Event.user_turn_completed tc) s).last_speech_time = now ∧
    stepEvent now Event.speech_started s = s := by
  exact ⟨rfl, rfl⟩

/-- C5 counterexample: user activity that resets the ActivityClock does not
    reset `reminder_played`.  From a state with the flag set (a reminder has
    fired), a user turn completed at time 30 updates the clock to 30 yet
    the flag is still `true` immediately afterwards — the claim requires it
    to be `false` at that point. -/
theorem reminder_flag_not_reset_cex :
    (stepEvent 30 (Event.user_turn_completed (some "hello"))
        (AgentState.mk 0 true [])).last_speech_time = 30 ∧
    ¬ ((stepEvent 30 (Event.user_turn_completed (some "hello"))
        (AgentState.mk 0 true [])).reminder_played = false) := by
  decide

/-- C5 amended: `reminder_played` is a local of the watcher loop: a clock
    update (user-turn completion) leaves it unchanged, and it is reset to
    `false` only at the next watchdog poll that observes elapsed time below
    the silence timeout. -/
theorem reminder_flag_reset_at_poll (s : AgentState) (now : Nat)
    (tc : Option String)
    (hlt : now - s.last_speech_time < SILENCE_TIMEOUT_SECONDS) :
    (stepEvent now Event.poll s).reminder_played = false ∧
    (stepEvent now (Event.user_turn_completed tc)
        s).reminder_played = s.reminder_played := by
  rw [poll_subtimeout_eq s now hlt]
  exact ⟨rfl, rfl⟩

/-- C5 amended witness: flag set, turn completed at 30, then a poll at 31
    (elapsed 1 < 20) clears the flag. -/
theorem reminder_flag_reset_at_poll_witness :
    31 - (AgentState.mk 30 true []).last_speech_time < SILENCE_TIMEOUT_SECONDS ∧
    ((stepEvent 31 Event.poll (AgentState.mk 30 true [])).reminder_played = false ∧
     (stepEvent 31 (Event.user_turn_completed (some "hi"))
        (AgentState.mk 30 true [])).reminder_played =
       (AgentState.mk 30 true []).reminder_played) :=
  ⟨by decide,
   reminder_flag_reset_at_poll (AgentState.mk 30 true []) 31 (some "hi") (by decide)⟩

/- Helper lemmas about poll runs (silence intervals). -/

lemma runPolls_append (s : AgentState) (l1 l2 : List Nat) :
    runPolls s (l1 ++ l2) = runPolls (runPolls s l1) l2 := by
  induction l1 generalizing s with
  | nil => rfl
  | cons t ts ih => simp [runPolls, ih]

lemma runPolls_subtimeout_id (a : Nat) (ts : List Nat) (s : AgentState)
    (hl : s.last_speech_time = a) (hfl : s.reminder_played = false)
    (hall : ∀ t ∈ ts, t - a < SILENCE_TIMEOUT_SECONDS) :
    runPolls s ts = s := by
  induction ts with
  | nil => rfl
  | cons t ts ih =>
      have hstep : stepEvent t Event.poll s = s := by
        rw [poll_subtimeout_eq s t (by rw [hl]; exact hall t (List.mem_cons_self t ts))]
        obtain ⟨x, rp, sd⟩ := s
        simp at hfl
        rw [hfl]
      rw [runPolls, hstep]
      exact ih fun t' ht' => hall t' (List.mem_cons_of_mem t ht')

lemma runPolls_subtimeout (a : Nat) (ts : List Nat) (s : AgentState)
    (hl : s.last_speech_time = a)
    (hall : ∀ t ∈ ts, t - a < SILENCE_TIMEOUT_SECONDS) :
    (runPolls s ts).last_speech_time = a ∧ (runPolls s ts).said = s.said ∧
    (ts ≠ [] → (runPolls s ts).reminder_played = false) := by
  cases ts with
  | nil => exact ⟨hl, rfl, fun h => absurd rfl h⟩
  | cons t ts =>
      have hstep : stepEvent t Event.poll s = { s with reminder_played := false } :=
        poll_subtimeout_eq s t (by rw [hl]; exact hall t (List.mem_cons_self t ts))
      have hid : runPolls { s with reminder_played := false } ts =
          { s with reminder_played := false } :=
        runPolls_subtimeout_id a ts _ hl rfl
          (fun t' ht' => hall t' (List.mem_cons_of_mem t ht'))
      rw [runPolls, hstep, hid]
      exact ⟨hl, rfl, fun _ => rfl⟩

lemma runPolls_saturated (a : Nat) (ts : List Nat) (s : AgentState)
    (hl : s.last_speech_time = a) (hfl : s.reminder_played = true)
    (hall : ∀ t ∈ ts, SILENCE_TIMEOUT_SECONDS ≤ t - a) :
    runPolls s ts = s := by
  induction ts with
  | nil => rfl
  | cons t ts ih =>
      have hstep : stepEvent t Event.poll s = s :=
        poll_saturated_eq s t (by rw [hl]; exact hall t (List.mem_cons_self t ts)) hfl
      rw [runPolls, hstep]
      exact ih fun t' ht' => hall t' (List.mem_cons_of_mem t ht')

lemma reminderCount_append_reminder (s : AgentState) (now : Nat) :
    reminderCount { s with reminder_played := true,
                           said := s.said ++ [(now, REMINDER_TEXT)] } =
      reminderCount s + 1 := by
  simp [reminderCount]

lemma runPolls_fire_once (a : Nat) (ts : List Nat) (s : AgentState)
    (hl : s.last_speech_time = a) (hfl : s.reminder_played = false)
    (hsorted : ts.Pairwise (· ≤ ·))
    (hex : ∃ t ∈ ts, SILENCE_TIMEOUT_SECONDS ≤ t - a) :
    reminderCount (runPolls s ts) = reminderCount s + 1 := by
  induction ts generalizing s with
  | nil => obtain ⟨t, ht, _⟩ := hex; exact absurd ht (List.not_mem_nil t)
  | cons t ts ih =>
      rw [List.pairwise_cons] at hsorted
      by_cases hge : SILENCE_TIMEOUT_SECONDS ≤ t - a
      · rw [runPolls, poll_fire_eq s t (by rw [hl]; exact hge) hfl,
          runPolls_saturated a ts
            (AgentState.mk s.last_speech_time true (s.said ++ [(t, REMINDER_TEXT)])) hl rfl
            fun t' ht' => le_trans hge (Nat.sub_le_sub_right (hsorted.1 t' ht') a)]
        exact reminderCount_append_reminder s t
      · have hlt : t - a < SILENCE_TIMEOUT_SECONDS := Nat.lt_of_not_le hge
        have hstep : stepEvent t Event.poll s = s := by
          rw [poll_subtimeout_eq s t (by rw [hl]; exact hlt)]
          obtain ⟨x, rp, sd⟩ := s
          simp at hfl
          rw [hfl]
        rw [runPolls, hstep]
        refine ih s hl hfl hsorted.2 ?_
        obtain ⟨t', ht', hge'⟩ := hex
        rcases List.mem_cons.mp ht' with h | h
        · rw [h] at hge'; exact absurd hge' hge
        · exact ⟨t', h, hge'⟩

lemma runPolls_atmost_one (a : Nat) (ts : List Nat) (s : AgentState)
    (hl : s.last_speech_time = a) (hsorted : ts.Pairwise (· ≤ ·)) :
    reminderCount (runPolls s ts) ≤ reminderCount s + 1 := by
  induction ts generalizing s with
  | nil => exact Nat.le_succ _
  | cons t ts ih =>
      rw [List.pairwise_cons] at hsorted
      by_cases hge : SILENCE_TIMEOUT_SECONDS ≤ t - a
      · cases hfl : s.reminder_played
        · rw [runPolls, poll_fire_eq s t (by rw [hl]; exact hge) hfl,
            runPolls_saturated a ts
              (AgentState.mk s.last_speech_time true (s.said ++ [(t, REMINDER_TEXT)])) hl rfl
              fun t' ht' => le_trans hge (Nat.sub_le_sub_right (hsorted.1 t' ht') a)]
          rw [reminderCount_append_reminder s t]
        · have hstep := poll_saturated_eq s t (by rw [hl]; exact hge) hfl
          rw [runPolls, hstep]
          exact ih s hl hsorted.2
      · have hlt : t - a < SILENCE_TIMEOUT_SECONDS := Nat.lt_of_not_le hge
        have hstep := poll_subtimeout_eq s t (by rw [hl]; exact hlt)
        rw [runPolls, hstep]
        exact ih _ hl hsorted.2

/-- C3 counterexample: a continuous silence interval of duration D ≥ timeout
    with zero reminders.  The agent is constructed at time 1 (clock 1); the
    watcher polls at 5, 10, 15, 20 (elapsed 4, 9, 14, 19, all below 20) and
    the user completes a turn at 24, ending a 23-second silence interval.
    D = 23 ≥ 20, yet no poll inside the interval saw elapsed ≥ 20, so zero
    reminder utterances were triggered — the claim requires exactly one. -/
theorem watchdog_single_fire_cex :
    SILENCE_TIMEOUT_SECONDS ≤ 24 - 1 ∧
    reminderCount (runTrace (initState 1)
      [(5, Event.poll), (10, Event.poll), (15, Event.poll), (20, Event.poll),
       (24, Event.user_turn_completed (some "hello"))]) = 0 := by
  decide

/-- C3 amended: over a continuous silence interval (clock fixed at `a`,
    only watchdog polls, at nondecreasing times): if every poll in the
    interval sees elapsed time below the timeout (in particular whenever
    D < timeout), zero reminders are triggered; at most one reminder is
    triggered in any case; and exactly one is triggered provided the
    reminder flag is clear at the start of the interval and some poll in
    the interval sees elapsed ≥ timeout (guaranteed when the silence
    outlasts the timeout by a full poll period under 5-second polling, but
    not for every D ≥ timeout). -/
theorem watchdog_single_fire_interval (a : Nat) (ts : List Nat) (s : AgentState)
    (hl : s.last_speech_time = a) (hsorted : ts.Pairwise (· ≤ ·)) :
    ((∀ t ∈ ts, t - a < SILENCE_TIMEOUT_SECONDS) →
        reminderCount (runPolls s ts) = reminderCount s) ∧
    reminderCount (runPolls s ts) ≤ reminderCount s + 1 ∧
    (s.reminder_played = false →
      (∃ t ∈ ts, SILENCE_TIMEOUT_SECONDS ≤ t - a) →
        reminderCount (runPolls s ts) = reminderCount s + 1) := by
  refine ⟨fun hall => ?_, runPolls_atmost_one a ts s hl hsorted,
    fun hfl hex => runPolls_fire_once a ts s hl hfl hsorted hex⟩
  obtain ⟨-, hsa, -⟩ := runPolls_subtimeout a ts s hl hall
  unfold reminderCount
  rw [hsa]

/-- C3 amended witness: clock 0, flag clear, polls at 5, 10, 15, 20, 25:
    the poll at 20 sees elapsed 20 ≥ timeout and exactly one reminder is
    triggered. -/
theorem watchdog_single_fire_interval_witness :
    reminderCount (runPolls (initState 0) [5, 10, 15, 20, 25]) =
      reminderCount (initState 0) + 1 :=
  (watchdog_single_fire_interval 0 [5, 10, 15, 20, 25] (initState 0) rfl
    (by decide)).2.2 rfl (by decide)

/-- C4 counterexample: a fired reminder, the interval broken by activity,
    then a new continuous silence interval of duration 23 ≥ timeout with no
    further reminder.  From construction at time 0: polls at 5, 10, 15
    (no fire), poll at 20 fires the reminder; a user turn at 21 breaks the
    interval (clock 21); polls at 25, 30, 35, 40 see elapsed 4, 9, 14, 19
    (the poll at 25 rearms the flag) and a user turn at 44 ends the new
    interval.  The new interval lasted 23 ≥ 20 seconds yet the total
    reminder count stays 1 — the claim requires exactly one more. -/
theorem watchdog_rearm_cex :
    SILENCE_TIMEOUT_SECONDS ≤ 44 - 21 ∧
    reminderCount (runTrace (initState 0)
      [(5, Event.poll), (10, Event.poll), (15, Event.poll), (20, Event.poll),
       (21, Event.user_turn_completed (some "hello"))]) = 1 ∧
    reminderCount (runTrace (initState 0)
      [(5, Event.poll), (10, Event.poll), (15, Event.poll), (20, Event.poll),
       (21, Event.user_turn_completed (some "hello")),
       (25, Event.poll), (30, Event.poll), (35, Event.poll), (40, Event.poll),
       (44, Event.user_turn_completed (some "again"))]) = 1 := by
  decide

/-- C4 amended: the watchdog rearms and resumes firing.  After a fired
    reminder (flag possibly still set), in a new silence interval with the
    clock fixed at `a`: once at least one poll sees elapsed < timeout (the
    rearming poll — under 5-second polling one occurs within the first poll
    period of the interval), a later poll seeing elapsed ≥ timeout triggers
    exactly one more reminder. -/
theorem watchdog_rearm_fires (a : Nat) (ts1 ts2 : List Nat) (s : AgentState)
    (hl : s.last_speech_time = a)
    (h1 : ∀ t ∈ ts1, t - a < SILENCE_TIMEOUT_SECONDS) (h1ne : ts1 ≠ [])
    (hs2 : ts2.Pairwise (· ≤ ·))
    (h2 : ∃ t ∈ ts2, SILENCE_TIMEOUT_SECONDS ≤ t - a) :
    reminderCount (runPolls s (ts1 ++ ts2)) = reminderCount s + 1 := by
  rw [runPolls_append]
  obtain ⟨hla, hsa, hfa⟩ := runPolls_subtimeout a ts1 s hl h1
  rw [runPolls_fire_once a ts2 (runPolls s ts1) hla (hfa h1ne) hs2 h2]
  unfold reminderCount
  rw [hsa]

/-- C4 amended witness: after a reminder fired at 20 (flag still set) and a
    turn at 21, the poll at 25 rearms and the poll at 41 (elapsed 20) fires
    exactly one more reminder. -/
theorem watchdog_rearm_fires_witness :
    reminderCount (runPolls (AgentState.mk 21 true [(20, REMINDER_TEXT)])
        ([25] ++ [41, 46])) =
      reminderCount (AgentState.mk 21 true [(20, REMINDER_TEXT)]) + 1 :=
  watchdog_rearm_fires 21 [25] [41, 46] (AgentState.mk 21 true [(20, REMINDER_TEXT)])
    rfl (by decide) (by decide) (by decide) (by decide)

/-- C6 counterexample: a TTS failure is not recovered locally.  With a TTS
    engine that always raises, a user turn at time 10 from the fresh agent
    leaves `on_user_turn_completed` with the error outcome (the source has
    no try/except), so the error does propagate out of the turn — the claim
    requires the handler to absorb it. -/
theorem synthesis_error_cex :
    ¬ ((on_user_turn_completed_say (fun _ => SayOutcome.synthesis_error) 10
        (some "hi") (initState 0)).2 = SayOutcome.ok) := by
  decide

/-- C6 amended: the agent code catches nothing.  The outcome of
    `session.say` propagates unchanged out of `on_user_turn_completed`
    (no retry: on error the utterance list is unchanged, while the clock —
    updated before the `say` — keeps its new value); likewise a TTS error
    while the watcher plays the reminder leaves the watcher loop body as the
    error outcome with the state unchanged (in particular `reminder_played`
    is still clear, as the flag assignment follows the `say`).  Any
    logging/IDLE recovery is the framework caller's, not this code's. -/
theorem synthesis_error_propagates (tts : String → SayOutcome) (now : Nat)
    (tc : Option String) (s : AgentState) :
    (on_user_turn_completed_say tts now tc s).2 = tts (userTurnResponse tc) ∧
    (on_user_turn_completed_say tts now tc s).1.last_speech_time = now ∧
    (tts (userTurnResponse tc) = SayOutcome.synthesis_error →
        (on_user_turn_completed_say tts now tc s).1.said = s.said) ∧
    (∀ (s2 : AgentState) (n2 : Nat),
        SILENCE_TIMEOUT_SECONDS ≤ n2 - s2.last_speech_time →
        s2.reminder_played = false →
        (silence_watcher_poll_say (fun _ => SayOutcome.synthesis_error) n2 s2).2 =
            SayOutcome.synthesis_error ∧
        (silence_watcher_poll_say (fun _ => SayOutcome.synthesis_error) n2 s2).1 = s2) := by
  refine ⟨?_, ?_, ?_, ?_⟩
  · cases h : tts (userTurnResponse tc) <;>
      simp [on_user_turn_completed_say, h]
  · cases h : tts (userTurnResponse tc) <;>
      simp [on_user_turn_completed_say, h]
  · intro h
    simp [on_user_turn_completed_say, h]
  · intro s2 n2 hge hfl
    constructor <;> simp [silence_watcher_poll_say, hge, hfl]

/-- C6 amended witness: concrete failing TTS, user turn at 10 and a watcher
    fire attempt at 25 from the fresh agent. -/
theorem synthesis_error_propagates_witness :
    (on_user_turn_completed_say (fun _ => SayOutcome.synthesis_error) 10
        (some "hi") (initState 0)).1.said = (initState 0).said ∧
    SILENCE_TIMEOUT_SECONDS ≤ 25 - (initState 0).last_speech_time ∧
    (silence_watcher_poll_say (fun _ => SayOutcome.synthesis_error) 25
        (initState 0)).2 = SayOutcome.synthesis_error :=
  ⟨(synthesis_error_propagates (fun _ => SayOutcome.synthesis_error) 10
      (some "hi") (initState 0)).2.2.1 rfl,
   by decide,
   ((synthesis_error_propagates (fun _ => SayOutcome.synthesis_error) 10
      (some "hi") (initState 0)).2.2.2 (initState 0) 25 (by decide) rfl).1⟩

/- Helper for the poll-latency claim: the first qualifying poll fires, and
   poll gaps bound how late it can be. -/

lemma runPolls_first_fire_bound (a : Nat) (ts : List Nat) (s : AgentState)
    (hl : s.last_speech_time = a) (hfl : s.reminder_played = false)
    (hsorted : ts.Pairwise (· ≤ ·))
    (hgap : ts.Chain' (fun x y => y ≤ x + WATCHDOG_POLL_INTERVAL_SECONDS))
    (hhead : ∀ h ∈ ts.head?,
        h < a + SILENCE_TIMEOUT_SECONDS + WATCHDOG_POLL_INTERVAL_SECONDS)
    (hex : ∃ t ∈ ts, SILENCE_TIMEOUT_SECONDS ≤ t - a) :
    ∃ t ∈ ts, SILENCE_TIMEOUT_SECONDS ≤ t - a ∧
      t < a + SILENCE_TIMEOUT_SECONDS + WATCHDOG_POLL_INTERVAL_SECONDS ∧
      (t, REMINDER_TEXT) ∈ (runPolls s ts).said ∧
      reminderCount (runPolls s ts) = reminderCount s + 1 := by
  induction ts generalizing s with
  | nil => obtain ⟨t, ht, -⟩ := hex; exact absurd ht (List.not_mem_nil t)
  | cons t ts ih =>
      rw [List.pairwise_cons] at hsorted
      rw [List.chain'_cons'] at hgap
      by_cases hge : SILENCE_TIMEOUT_SECONDS ≤ t - a
      · have hbound := hhead t rfl
        have hrun : runPolls s (t :: ts) =
            AgentState.mk s.last_speech_time true (s.said ++ [(t, REMINDER_TEXT)]) := by
          rw [runPolls, poll_fire_eq s t (by rw [hl]; exact hge) hfl]
          exact runPolls_saturated a ts
            (AgentState.mk s.last_speech_time true (s.said ++ [(t, REMINDER_TEXT)])) hl rfl
            fun t' ht' => le_trans hge (Nat.sub_le_sub_right (hsorted.1 t' ht') a)
        refine ⟨t, List.mem_cons_self t ts, hge, hbound, ?_, ?_⟩
        · rw [hrun]
          exact List.mem_append_right _ (List.mem_singleton.mpr rfl)
        · rw [hrun]
          exact reminderCount_append_reminder s t
      · have hlt : t - a < SILENCE_TIMEOUT_SECONDS := Nat.lt_of_not_le hge
        have hstep : stepEvent t Event.poll s = s := by
          rw [poll_subtimeout_eq s t (by rw [hl]; exact hlt)]
          obtain ⟨x, rp, sd⟩ := s
          simp at hfl
          rw [hfl]
        have hex' : ∃ t' ∈ ts, SILENCE_TIMEOUT_SECONDS ≤ t' - a := by
          obtain ⟨t', ht', hge'⟩ := hex
          rcases List.mem_cons.mp ht' with h | h
          · rw [h] at hge'; exact absurd hge' hge
          · exact ⟨t', h, hge'⟩
        have hhead' : ∀ h ∈ ts.head?,
            h < a + SILENCE_TIMEOUT_SECONDS + WATCHDOG_POLL_INTERVAL_SECONDS := by
          intro h hh
          have h1 : h ≤ t + WATCHDOG_POLL_INTERVAL_SECONDS := hgap.1 h hh
          have h2 : t < a + SILENCE_TIMEOUT_SECONDS := by omega
          omega
        obtain ⟨t', ht', h1, h2, h3, h4⟩ := ih s hl hfl hsorted.2 hgap.2 hhead' hex'
        rw [runPolls, hstep]
        exact ⟨t', List.mem_cons_of_mem t ht', h1, h2, h3, h4⟩

/-- C7: the watchdog poll period is the fixed 5 seconds of
    `asyncio.sleep(5)`, which is shorter than the 20-second silence
    timeout; consequently, over a silence interval (clock fixed at `a`,
    reminder flag clear) whose polls come at nondecreasing times with gaps
    of at most one poll period, where some poll falls within one poll
    period of the interval start and some poll sees elapsed ≥ timeout (the
    silence outlasts the timeout to the next poll), exactly one reminder is
    triggered, at a poll that sees elapsed ≥ timeout but lies strictly
    before `a + timeout + poll period`: the fired latency is bounded by
    the poll period, not exact. -/
theorem watchdog_poll_latency (a : Nat) (ts : List Nat) (s : AgentState)
    (hl : s.last_speech_time = a) (hfl : s.reminder_played = false)
    (hsorted : ts.Pairwise (· ≤ ·))
    (hgap : ts.Chain' (fun x y => y ≤ x + WATCHDOG_POLL_INTERVAL_SECONDS))
    (hstart : ∃ t ∈ ts, t ≤ a + WATCHDOG_POLL_INTERVAL_SECONDS)
    (hex : ∃ t ∈ ts, SILENCE_TIMEOUT_SECONDS ≤ t - a) :
    WATCHDOG_POLL_INTERVAL_SECONDS = 5 ∧ SILENCE_TIMEOUT_SECONDS = 20 ∧
    WATCHDOG_POLL_INTERVAL_SECONDS < SILENCE_TIMEOUT_SECONDS ∧
    ∃ t ∈ ts, SILENCE_TIMEOUT_SECONDS ≤ t - a ∧
      t < a + SILENCE_TIMEOUT_SECONDS + WATCHDOG_POLL_INTERVAL_SECONDS ∧
      (t, REMINDER_TEXT) ∈ (runPolls s ts).said ∧
      reminderCount (runPolls s ts) = reminderCount s + 1 := by
  refine ⟨rfl, rfl, by decide, ?_⟩
  refine runPolls_first_fire_bound a ts s hl hfl hsorted hgap ?_ hex
  intro h hh
  cases ts with
  | nil => exact absurd hh (by simp)
  | cons t0 ts' =>
      have hh' : h = t0 := by simpa [eq_comm] using hh
      rw [List.pairwise_cons] at hsorted
      obtain ⟨t, ht, hta⟩ := hstart
      have hht : h ≤ a + WATCHDOG_POLL_INTERVAL_SECONDS := by
        rcases List.mem_cons.mp ht with h1 | h1
        · rw [hh', ← h1]; exact hta
        · exact le_trans (by rw [hh']; exact hsorted.1 t h1) hta
      have hTpos : 0 < SILENCE_TIMEOUT_SECONDS := by decide
      omega

/-- C7 witness: clock 0, flag clear, polls at 5, 10, 15, 20 with gaps of 5:
    the reminder fires at 20, within one poll period of the timeout. -/
theorem watchdog_poll_latency_witness :
    WATCHDOG_POLL_INTERVAL_SECONDS = 5 ∧ SILENCE_TIMEOUT_SECONDS = 20 ∧
    WATCHDOG_POLL_INTERVAL_SECONDS < SILENCE_TIMEOUT_SECONDS ∧
    ∃ t ∈ [5, 10, 15, 20], SILENCE_TIMEOUT_SECONDS ≤ t - 0 ∧
      t < 0 + SILENCE_TIMEOUT_SECONDS + WATCHDOG_POLL_INTERVAL_SECONDS ∧
      (t, REMINDER_TEXT) ∈ (runPolls (initState 0) [5, 10, 15, 20]).said ∧
      reminderCount (runPolls (initState 0) [5, 10, 15, 20]) =
        reminderCount (initState 0) + 1 :=
  watchdog_poll_latency 0 [5, 10, 15, 20] (initState 0) rfl rfl
    (by decide) (by norm_num [List.chain'_cons, WATCHDOG_POLL_INTERVAL_SECONDS])
    (by decide) (by decide)

/-- Discriminator: is this event a user-turn completion?  (The only event
    whose handler writes `_last_speech_time`.) -/
def isUserTurn : Event → Bool
  | Event.user_turn_completed _ => true
  | _ => false

lemma reminderCount_append_other (s : AgentState) (t : Nat) (x : String)
    (hx : (x == REMINDER_TEXT) = false) :
    reminderCount { s with said := s.said ++ [(t, x)] } = reminderCount s := by
  simp [reminderCount, hx]

/- Over a trace with no user-turn completions and nondecreasing times, the
   clock never moves and at most one reminder can ever fire: after the
   first fire the elapsed time never drops below the timeout again, so the
   flag is never cleared. -/

lemma runTrace_no_turn (t0 : Nat) (tr : List (Nat × Event)) (s : AgentState)
    (hl : s.last_speech_time = t0)
    (hno : ∀ p ∈ tr, isUserTurn p.2 = false)
    (hsorted : tr.Pairwise (fun p q => p.1 ≤ q.1))
    (hflag : s.reminder_played = true →
      ∀ p ∈ tr, SILENCE_TIMEOUT_SECONDS ≤ p.1 - t0) :
    (runTrace s tr).last_speech_time = t0 ∧
    reminderCount (runTrace s tr) ≤
      reminderCount s + (if s.reminder_played then 0 else 1) := by
  induction tr generalizing s with
  | nil => exact ⟨hl, Nat.le_add_right _ _⟩
  | cons p tr ih =>
      obtain ⟨t, e⟩ := p
      rw [List.pairwise_cons] at hsorted
      have hnop := hno (t, e) (List.mem_cons_self _ _)
      have hno' : ∀ q ∈ tr, isUserTurn q.2 = false :=
        fun q hq => hno q (List.mem_cons_of_mem _ hq)
      match e with
      | Event.user_turn_completed tc => exact absurd hnop (by simp [isUserTurn])
      | Event.speech_started =>
          rw [runTrace]
          exact ih s hl hno' hsorted.2 fun h q hq => hflag h q (List.mem_cons_of_mem _ hq)
      | Event.on_enter =>
          rw [runTrace]
          have hcnt := reminderCount_append_other s t GREETING_TEXT (by decide)
          have := ih { s with said := s.said ++ [(t, GREETING_TEXT)] } hl hno'
            hsorted.2 fun h q hq => hflag h q (List.mem_cons_of_mem _ hq)
          rw [hcnt] at this
          exact this
      | Event.poll =>
          rw [runTrace]
          cases hfl : s.reminder_played
          · by_cases hge : SILENCE_TIMEOUT_SECONDS ≤ t - t0
            · rw [poll_fire_eq s t (by rw [hl]; exact hge) hfl]
              have hftail : ∀ q ∈ tr, SILENCE_TIMEOUT_SECONDS ≤ q.1 - t0 := by
                intro q hq
                have := hsorted.1 q hq
                omega
              have h := ih (AgentState.mk s.last_speech_time true
                  (s.said ++ [(t, REMINDER_TEXT)])) hl hno' hsorted.2 fun _ => hftail
              rw [reminderCount_append_reminder s t] at h
              refine ⟨h.1, ?_⟩
              have h2 := h.2
              simp only [if_pos] at h2
              simp only [if_neg (by decide : ¬ (false = true))]
              omega
            · have hstep : stepEvent t Event.poll s = s := by
                rw [poll_subtimeout_eq s t (by rw [hl]; exact Nat.lt_of_not_le hge)]
                obtain ⟨x, rp, sd⟩ := s
                simp at hfl
                rw [hfl]
              rw [hstep]
              have h := ih s hl hno' hsorted.2
                fun h' q hq => hflag h' q (List.mem_cons_of_mem _ hq)
              rw [hfl] at h
              exact h
          · have hge : SILENCE_TIMEOUT_SECONDS ≤ t - t0 :=
              hflag hfl (t, Event.poll) (List.mem_cons_self _ _)
            rw [poll_saturated_eq s t (by rw [hl]; exact hge) hfl]
            have h := ih s hl hno' hsorted.2
              fun h' q hq => hflag h' q (List.mem_cons_of_mem _ hq)
            rw [hfl] at h
            exact h

/-- C9: `_last_speech_time` is written only at agent construction and on
    user-turn completion — every other event (VAD speech start, the
    greeting on entry, a watchdog poll, including one that plays the
    reminder) leaves it unchanged; consequently, over any session trace
    with nondecreasing timestamps in which the user never completes a turn,
    at most one reminder utterance is ever played, no matter how long the
    trace runs. -/
theorem clock_writes_and_single_reminder (t0 : Nat) (tr : List (Nat × Event))
    (hno : ∀ p ∈ tr, isUserTurn p.2 = false)
    (hsorted : tr.Pairwise (fun p q => p.1 ≤ q.1)) :
    (∀ (s : AgentState) (now : Nat) (e : Event), isUserTurn e = false →
        (stepEvent now e s).last_speech_time = s.last_speech_time) ∧
    (runTrace (initState t0) tr).last_speech_time = t0 ∧
    reminderCount (runTrace (initState t0) tr) ≤ 1 := by
  have haux := runTrace_no_turn t0 tr (initState t0) rfl hno hsorted
    (fun h => absurd h (by simp [initState]))
  refine ⟨?_, haux.1, ?_⟩
  · intro s now e he
    match e with
    | Event.speech_started => rfl
    | Event.on_enter => rfl
    | Event.poll => exact poll_last s now
    | Event.user_turn_completed tc => exact absurd he (by simp [isUserTurn])
  · have h2 := haux.2
    simpa [initState, reminderCount] using h2

/-- C9 witness: greeting at 1, polls at 5, 25, 30, 45: the poll at 25 fires
    the reminder, the later polls cannot fire again, the clock stays 0. -/
theorem clock_writes_and_single_reminder_witness :
    (∀ p ∈ [((1 : Nat), Event.on_enter), (5, Event.poll), (25, Event.poll),
        (30, Event.poll), (45, Event.poll)], isUserTurn p.2 = false) ∧
    ((runTrace (initState 0) [(1, Event.on_enter), (5, Event.poll), (25, Event.poll),
        (30, Event.poll), (45, Event.poll)]).last_speech_time = 0 ∧
      reminderCount (runTrace (initState 0) [(1, Event.on_enter), (5, Event.poll),
        (25, Event.poll), (30, Event.poll), (45, Event.poll)]) ≤ 1) :=
  ⟨by decide,
   (clock_writes_and_single_reminder 0 [(1, Event.on_enter), (5, Event.poll),
      (25, Event.poll), (30, Event.poll), (45, Event.poll)] (by decide) (by decide)).2⟩

end VoiceAgent
